import Mathlib

/-!
Shallow embedding of the pygosym decoders (src/pygosym/pclntab.py and
src/pygosym/symtab.py), together with theorems settling the frozen claims
about them.

Conventions used throughout the embedding:
* a Python `bytes`/`memoryview` value is a `List Nat` of byte values;
  Python slicing clamps, so it is modelled with `List.take`/`List.drop`;
* a decoded Python `str` is a `List Nat` of Unicode code points;
* Python code that can raise is modelled in `Except PyErr`;
* a Python local variable that may be read before its first assignment is
  modelled as an `Option`, reading `none` yields `PyErr.unboundLocal`;
* `while` loops whose progress is part of what is being verified take an
  explicit iteration budget (`fuel`); exhausting it yields `PyErr.outOfFuel`.
-/

set_option maxRecDepth 8000

deriving instance DecidableEq for Except

namespace Pygosym

/-- Observable Python exception outcomes of the embedded code. -/
inductive PyErr where
  /-- raise DecodingError("unexpected EOF") -/
  | decodingEOF
  /-- raise DecodingError("bad symbol type") -/
  | decodingBadType
  /-- raise DecodingError("bad filename code") -/
  | decodingBadFile
  /-- UnboundLocalError: a local variable read before any assignment -/
  | unboundLocal
  /-- IndexError from out-of-range sequence indexing -/
  | indexError
  /-- UnicodeDecodeError from bytes.decode("utf-8") -/
  | unicodeErr
  /-- TypeError: a call with a missing required positional argument -/
  | typeErr
  /-- a loop is still running after the supplied iteration budget -/
  | outOfFuel
  deriving DecidableEq, Repr

/-- Python int.from_bytes(b, "big"). -/
def fromBytesBE (l : List Nat) : Nat := l.foldl (fun a b => a * 256 + b) 0

/-- Python int.from_bytes(b, "little"). -/
def fromBytesLE (l : List Nat) : Nat := fromBytesBE l.reverse

/-- Python bytes.startswith(pre). -/
def bytesStarts (l pre : List Nat) : Bool := decide (l.take pre.length = pre)

/-- Code points of a Lean string literal, used for Python str constants. -/
def strCodes (s : String) : List Nat := s.data.map Char.toNat

/-- The ByteOrder enum of pclntab.py. -/
inductive ByteOrder where
  | little
  | big
  deriving DecidableEq, Repr

/-- ByteOrder.from_bytes. -/
def ByteOrder.from_bytes : ByteOrder → List Nat → Nat
  | .little, l => fromBytesLE l
  | .big, l => fromBytesBE l

/-- ByteOrder.u32: from_bytes over the first 4 bytes. -/
def ByteOrder.u32 (o : ByteOrder) (l : List Nat) : Nat := o.from_bytes (l.take 4)

/-- OLD_QUANTUM from pclntab.py (always 1 in this layer). -/
def OLD_QUANTUM : Int := 1

/-- GO12_MAGIC from pclntab.py. -/
def GO12_MAGIC : Nat := 0xfffffffb

/--
LineTable.parse from pclntab.py: the classic delta-opcode loop over the
local state `(b, pc, line)`, stopping once `pc` passes `target_pc`, `line`
hits `target_line`, or the buffer is exhausted.  The `code == 0` opcode with
fewer than 4 following bytes empties the buffer (`b = b[0:0]`), still adds
one quantum to `pc`, and the loop then exits, which is returned directly
here.
-/
def parse : List Nat → Int → Int → Int → Int → List Nat × Int × Int
  | b, pc, line, target_pc, target_line =>
    if pc ≤ target_pc ∧ line ≠ target_line ∧ b ≠ [] then
      match b with
      | [] => (b, pc, line)
      | code :: rest =>
        if code = 0 then
          match rest with
          | r1 :: r2 :: r3 :: r4 :: rest4 =>
            parse rest4 (pc + OLD_QUANTUM)
              (line + (fromBytesBE [r1, r2, r3, r4] : Int)) target_pc target_line
          | _ => ([], pc + OLD_QUANTUM, line)
        else if code ≤ 64 then
          parse rest (pc + OLD_QUANTUM) (line + (code : Int)) target_pc target_line
        else if code ≤ 128 then
          parse rest (pc + OLD_QUANTUM) (line - ((code : Int) - 64)) target_pc target_line
        else
          parse rest (pc + OLD_QUANTUM * ((code : Int) - 128)) line target_pc target_line
    else (b, pc, line)

/-- Lower bound for the second byte of a 3-byte UTF-8 sequence. -/
def utf8Lo3 (b : Nat) : Nat := if b = 0xE0 then 0xA0 else 0x80

/-- Upper bound for the second byte of a 3-byte UTF-8 sequence. -/
def utf8Hi3 (b : Nat) : Nat := if b = 0xED then 0x9F else 0xBF

/-- Lower bound for the second byte of a 4-byte UTF-8 sequence. -/
def utf8Lo4 (b : Nat) : Nat := if b = 0xF0 then 0x90 else 0x80

/-- Upper bound for the second byte of a 4-byte UTF-8 sequence. -/
def utf8Hi4 (b : Nat) : Nat := if b = 0xF4 then 0x8F else 0xBF

/--
Python bytes.decode("utf-8") (strict): byte list to Unicode code points,
`none` on invalid input (UnicodeDecodeError).
-/
def utf8Decode : List Nat → Option (List Nat)
  | [] => some []
  | b :: r =>
    if b < 0x80 then (utf8Decode r).map (b :: ·)
    else if b < 0xC2 then none
    else if b ≤ 0xDF then
      match r with
      | b2 :: r2 =>
        if 0x80 ≤ b2 ∧ b2 ≤ 0xBF then
          (utf8Decode r2).map (((b - 0xC0) * 64 + (b2 - 0x80)) :: ·)
        else none
      | [] => none
    else if b ≤ 0xEF then
      match r with
      | b2 :: b3 :: r3 =>
        if utf8Lo3 b ≤ b2 ∧ b2 ≤ utf8Hi3 b ∧ 0x80 ≤ b3 ∧ b3 ≤ 0xBF then
          (utf8Decode r3).map
            (((b - 0xE0) * 4096 + (b2 - 0x80) * 64 + (b3 - 0x80)) :: ·)
        else none
      | _ => none
    else if b ≤ 0xF4 then
      match r with
      | b2 :: b3 :: b4 :: r4 =>
        if utf8Lo4 b ≤ b2 ∧ b2 ≤ utf8Hi4 b ∧ 0x80 ≤ b3 ∧ b3 ≤ 0xBF ∧
            0x80 ≤ b4 ∧ b4 ≤ 0xBF then
          (utf8Decode r4).map
            (((b - 0xF0) * 262144 + (b2 - 0x80) * 4096 + (b3 - 0x80) * 64 +
              (b4 - 0x80)) :: ·)
        else none
      | _ => none
    else none

/-- The Sym dataclass of pclntab.py; `func` is an index into Table.funcs. -/
structure GoSym where
  value : Nat := 0
  type : Nat := 0
  name : List Nat := []
  go_type : Nat := 0
  func : Option Nat := none
  deriving DecidableEq, Repr

/--
The LineTable dataclass of pclntab.py: the borrowed buffer plus the decode
position.  The `checked_go12`/`_go12` cache only memoizes `go12_init`, which
is deterministic, so the cache is not part of the semantic state.
-/
structure LineTable where
  data : List Nat
  PC : Int := 0
  line : Int := 0
  deriving DecidableEq, Repr

/-- LineTable.slice: fast-forward toward `pc` with unreachable target line. -/
def LineTable.slice (lt : LineTable) (pc : Int) : LineTable :=
  let r := parse lt.data lt.PC lt.line pc (-1)
  { data := r.1, PC := r.2.1, line := r.2.2 }

/--
The Func dataclass of pclntab.py.  new_table sets `fn.sym` to a symbol of
Table.syms (kept as an index), while go12_funcs builds a fresh Sym inline.
The Sym fields Func inherits are never assigned by the embedded code and
stay at their defaults, so they are not repeated here.  `params`/`locals`
hold indices into Table.syms, `obj` an index into Table.objs.  The Python
field `end` is called `endAddr` (`end` is a Lean keyword).
-/
structure GoFunc where
  sym : Option (Sum Nat GoSym) := none
  entry : Nat := 0
  endAddr : Nat := 0
  params : List Nat := []
  locals : List Nat := []
  frame_size : Nat := 0
  line_table : Option LineTable := none
  obj : Option Nat := none
  deriving DecidableEq, Repr

/-- The Obj dataclass: `funcs` and `paths` as indices into the Table arenas. -/
structure GoObj where
  funcs : List Nat := []
  paths : Option (List Nat) := none
  deriving DecidableEq, Repr

/--
The Go12State dataclass of pclntab.py.  `file_map` defaults to the Python
empty dict; `none` would model Python None, which no constructor ever
produces.  Both dicts are association lists.
-/
structure Go12State where
  functab : List Nat := []
  filetab : List Nat := []
  binary : ByteOrder := .little
  quantum : Nat := 0
  ptrsize : Nat := 0
  nfunctab : Nat := 0
  nfiletab : Nat := 0
  file_map : Option (List (List Nat × Nat)) := some []
  strings : List (Nat × List Nat) := []
  deriving DecidableEq, Repr

/-- Go12State.uintptr. -/
def Go12State.uintptr (st : Go12State) (b : List Nat) : Nat :=
  st.binary.from_bytes (b.take st.ptrsize)

/-- Python bytes strlen scan: length of the run before the first NUL. -/
def strlen : List Nat → Nat
  | [] => 0
  | b :: r => if b = 0 then 0 else strlen r + 1

/--
Go12State.string: memoized NUL-terminated string decode at an absolute
offset.  A cache hit returns the stored string; otherwise the run is
scanned, decoded (UnicodeDecodeError on invalid UTF-8) and cached.
-/
def Go12State.string (st : Go12State) (data : List Nat) (off : Nat) :
    Except PyErr (Go12State × List Nat) :=
  match List.lookup off st.strings with
  | some res => .ok (st, res)
  | none =>
    let size := strlen (data.drop off)
    match utf8Decode ((data.drop off).take size) with
    | none => .error .unicodeErr
    | some res => .ok ({ st with strings := (off, res) :: st.strings }, res)

/--
Go12State.init_file_map.  The guard `if self.file_map is not None: return`
compares against Python None, but the field's default is the empty dict, so
the guard is always taken and the map is never filled in.  Were the guard
ever passed with `nfiletab > 1`, the dict comprehension would call
`self.string(off)` with its required `data` argument missing, a TypeError;
with `nfiletab <= 1` the comprehension is empty and builds `{}`.
-/
def Go12State.init_file_map (st : Go12State) : Except PyErr Go12State :=
  if st.file_map ≠ none then .ok st
  else if st.nfiletab ≤ 1 then .ok { st with file_map := some [] }
  else .error .typeErr

/-- Ordered Python-dict insert for the Table.files map. -/
def filesSet (m : List (List Nat × Nat)) (k : List Nat) (v : Nat) :
    List (List Nat × Nat) :=
  if m.any (fun p => p.1 = k) then m.map (fun p => if p.1 = k then (k, v) else p)
  else m ++ [(k, v)]

/--
Go12State.go12_map_files: runs init_file_map, then maps every key of
file_map to `obj` (an index into Table.objs) in `m`.
-/
def Go12State.go12_map_files (st : Go12State) (m : List (List Nat × Nat))
    (obj : Nat) : Except PyErr (Go12State × List (List Nat × Nat)) := do
  let st2 ← st.init_file_map
  .ok (st2, (st2.file_map.getD []).foldl (fun acc kv => filesSet acc kv.1 obj) m)

/--
Loop body of Go12State.go12_funcs over the function-table indices.  Builds
each Func from the entry/end addresses, the info blob located through the
stored offset, and the interned name; threads the string cache.
-/
def go12FuncsGo (data : List Nat) (lt : LineTable) :
    Go12State → List Nat → Except PyErr (Go12State × List GoFunc)
  | st, [] => .ok (st, [])
  | st, i :: rest => do
    let entry := st.uintptr (st.functab.drop (2 * i * st.ptrsize))
    let endv := st.uintptr (st.functab.drop ((2 * i + 2) * st.ptrsize))
    let info := data.drop (st.uintptr (st.functab.drop ((2 * i + 1) * st.ptrsize)))
    let frame_size := st.binary.u32 (info.drop (st.ptrsize + 2 * 4))
    let r ← st.string data (st.binary.u32 (info.drop st.ptrsize))
    let rec2 ← go12FuncsGo data lt r.1 rest
    .ok (rec2.1,
      { sym := some (.inr { value := entry, type := 84, name := r.2, go_type := 0 }),
        entry := entry, endAddr := endv, line_table := some lt,
        frame_size := frame_size } :: rec2.2)

/-- Go12State.go12_funcs: enumerate all functions from the modern tables. -/
def Go12State.go12_funcs (st : Go12State) (line_table : LineTable) :
    Except PyErr (Go12State × List GoFunc) :=
  go12FuncsGo line_table.data line_table st
    (List.range (st.functab.length / st.ptrsize / 2))

/-- Python indexing data[i]: IndexError when out of range. -/
def pyGet (l : List Nat) (i : Nat) : Except PyErr Nat :=
  match l.get? i with
  | some v => .ok v
  | none => .error .indexError

/-- Tail of go12_init after a successful header check: pure slicing reads. -/
def go12InitTail (data : List Nat) (binary : ByteOrder) (quantum ptrsize : Nat) :
    Go12State :=
  let nfunctab := binary.from_bytes ((data.drop 8).take ptrsize)
  let functab := data.drop (8 + ptrsize)
  let functabsize := (nfunctab * 2 + 1) * ptrsize
  let fileoff := binary.from_bytes ((functab.drop functabsize).take 4)
  let functab2 := functab.take functabsize
  let filetab := data.drop fileoff
  let nfiletab := binary.from_bytes (filetab.take 4)
  let filetab2 := filetab.take (nfiletab * 4)
  { functab := functab2, filetab := filetab2, binary := binary,
    quantum := quantum, ptrsize := ptrsize, nfunctab := nfunctab,
    nfiletab := nfiletab }

/--
LineTable.go12_init: validate the modern aux header and build a Go12State.
The Python `or`-chain short-circuits, so the byte reads at offsets 4..7 only
happen once the length check passed; they are still modelled as fallible
indexings.  The surrounding `try`/`except Exception: raise` re-raises, so
exceptions simply propagate.  `none` means "not a modern table".
-/
def LineTable.go12_init (lt : LineTable) : Except PyErr (Option Go12State) :=
  if lt.data.length < 16 then .ok none
  else
    match pyGet lt.data 4 with
    | .error e => .error e
    | .ok b4 =>
      if b4 ≠ 0 then .ok none
      else
        match pyGet lt.data 5 with
        | .error e => .error e
        | .ok b5 =>
          if b5 ≠ 0 then .ok none
          else
            match pyGet lt.data 6 with
            | .error e => .error e
            | .ok b6 =>
              if b6 ≠ 1 ∧ b6 ≠ 2 ∧ b6 ≠ 4 then .ok none
              else
                match pyGet lt.data 7 with
                | .error e => .error e
                | .ok b7 =>
                  if b7 ≠ 4 ∧ b7 ≠ 8 then .ok none
                  else
                    if fromBytesBE (lt.data.take 4) = GO12_MAGIC then
                      .ok (some (go12InitTail lt.data .big b6 b7))
                    else if fromBytesLE (lt.data.take 4) = GO12_MAGIC then
                      .ok (some (go12InitTail lt.data .little b6 b7))
                    else .ok none

/-- The go12 property: memoized go12_init; semantically just go12_init. -/
def LineTable.go12 (lt : LineTable) : Except PyErr (Option Go12State) :=
  lt.go12_init

/-- LITTLE_ENDIAN_SYMTAB from symtab.py. -/
def LITTLE_ENDIAN_SYMTAB : List Nat := [0xFD, 0xFF, 0xFF, 0xFF, 0x00, 0x00, 0x00]

/-- BIG_ENDIAN_SYMTAB from symtab.py. -/
def BIG_ENDIAN_SYMTAB : List Nat := [0xFF, 0xFF, 0xFF, 0xFD, 0x00, 0x00, 0x00]

/-- OLD_LITTLE_ENDIAN_SYMTAB from symtab.py. -/
def OLD_LITTLE_ENDIAN_SYMTAB : List Nat := [0xFE, 0xFF, 0xFF, 0xFF, 0x00, 0x00]

/-- The low-level `sym` record of symtab.py; `name` holds raw bytes. -/
structure symRec where
  value : Nat := 0
  typ : Nat := 0
  name : List Nat := []
  gotype : Nat := 0
  deriving DecidableEq, Repr

/--
The variable-width value loop of walksymtab (new table format, wide flag
clear): while the high bit continues, fold `s.value |= p[0] & 0x7F << shift`
-- which, by Python operator precedence, is `p[0] & (0x7F << shift)` -- then
finish with `s.value |= p[0] << shift` on the terminating byte.  Running out
of buffer executes `return DecodingError("unexpected EOF")` inside the
generator, which ends iteration silently; `.inl` carries the partial value
the shared record was left with.
-/
def varLoop : List Nat → Nat → Nat → Sum Nat (Nat × List Nat)
  | [], v, _ => .inl v
  | b :: rest, v, shift =>
    if b &&& 0x80 ≠ 0 then varLoop rest (v ||| (b &&& (0x7F <<< shift))) (shift + 7)
    else .inr (v ||| (b <<< shift), rest)

/-- Index of the first NUL byte, if any. -/
def idxOfNul : List Nat → Option Nat
  | [] => none
  | b :: r => if b = 0 then some 0 else (idxOfNul r).map (· + 1)

/--
The NUL scan `for i in range(len(p)): if p[i] == 0: nnul = 1; break` of
walksymtab.  If `p` is empty neither variable is touched; if no NUL is
found the loop variable is left at the last index and `nnul` keeps its
previous (possibly unbound) value.
-/
def scanNul (p : List Nat) (iv nnul : Option Nat) : Option Nat × Option Nat :=
  match p with
  | [] => (iv, nnul)
  | _ :: _ =>
    match idxOfNul p with
    | some k => (some k, some 1)
    | none => (some (p.length - 1), nnul)

/--
The double-NUL scan `for i in range(0, len(p), 2)` of walksymtab for path
records, two bytes at a time starting at byte index `k`.  `p[i+1]` is only
read when `p[i] == 0` (Python short-circuit); reading it past the end is an
IndexError.  Loop exhaustion leaves the loop variable at the last visited
index (or the incoming value when the loop never ran).
-/
def scanPairs : List Nat → Nat → Option Nat → Option Nat →
    Except PyErr (Option Nat × Option Nat)
  | [], _, iv, nnul => .ok (iv, nnul)
  | [b], k, _, nnul => if b = 0 then .error .indexError else .ok (some k, nnul)
  | b :: b2 :: rest, k, _, nnul =>
    if b = 0 then
      if b2 = 0 then .ok (some k, some 2)
      else scanPairs rest (k + 2) (some k) nnul
    else scanPairs rest (k + 2) (some k) nnul

/-- Byte codes of b"Zz". -/
def bZz : List Nat := [90, 122]

/-- Byte codes of b"TtLl". -/
def bTtLl : List Nat := [84, 116, 76, 108]

/-- Byte codes of b"TtLlZz". -/
def bTtLlZz : List Nat := [84, 116, 76, 108, 90, 122]

/--
State of the walksymtab record loop: the remaining buffer, the single
shared mutable `sym` record, the function-level locals `i`/`nnul` (unbound
until first assigned), and the records yielded so far.
-/
structure WSState where
  p : List Nat := []
  sv : symRec := {}
  iv : Option Nat := none
  nnul : Option Nat := none
  acc : List symRec := []
  deriving Repr

/-- Outcome of one walksymtab iteration: continue, or the generator ended
(final accumulated yields plus the final state of the shared record). -/
inductive WSOut where
  | next (st : WSState)
  | stop (acc : List symRec) (sv : symRec)
  deriving Repr

/--
Name phase of a walksymtab iteration (lines 117-144 of symtab.py): the NUL
scan, the path-record double-NUL rescan, the truncation check
`len(p) < i + nnul` (an UnboundLocalError if a variable it reads was never
assigned), the name slice, and, for the three old formats, the trailing
4-byte type-descriptor read; ends with the yield.
-/
def wsName (newFmt : Bool) (order : ByteOrder) (typ : Nat) (s : symRec)
    (p : List Nat) (iv nnul : Option Nat) (acc : List symRec) :
    Except PyErr WSOut := do
  let scan1 := scanNul p iv nnul
  let afterZ ←
    if bZz.contains typ then
      match scan1.1, scan1.2 with
      | some i, some nn => do
        let p2 := p.drop (i + nn)
        let r ← scanPairs p2 0 scan1.1 scan1.2
        .ok (p2, r.1, r.2)
      | _, _ => .error .unboundLocal
    else
      .ok (p, scan1.1, scan1.2)
  match afterZ.2.1, afterZ.2.2 with
  | some i, some nn =>
    let p2 := afterZ.1
    if p2.length < i + nn then .error .decodingEOF
    else
      let s2 := { s with name := p2.take i }
      let i2 := i + nn
      let p3 := p2.drop i2
      if newFmt then
        .ok (.next
          { p := p3, sv := s2, iv := some i2, nnul := some nn,
            acc := acc ++ [s2] })
      else
        if p3.length < 4 then .error .decodingEOF
        else
          let s3 := { s2 with gotype := order.from_bytes (p3.take 4) }
          .ok (.next
            { p := p3.drop 4, sv := s3, iv := some i2, nnul := some nn,
              acc := acc ++ [s3] })
  | _, _ => .error .unboundLocal

/--
Optional fixed-width go-type field of the new layout (lines 99-104 of
symtab.py), then the name phase.
-/
def wsGotype (order : ByteOrder) (ptrsz : Nat) (goty : Bool) (typ : Nat)
    (s : symRec) (p : List Nat) (st : WSState) : Except PyErr WSOut :=
  if goty then
    if p.length < ptrsz then .error .decodingEOF
    else
      wsName true order typ { s with gotype := order.from_bytes (p.take ptrsz) }
        (p.drop ptrsz) st.iv st.nnul st.acc
  else
    wsName true order typ s p st.iv st.nnul st.acc

/--
One iteration of the walksymtab record loop (entered with `len(p) >= 4`):
decode the type/value/go-type fields for the new or legacy layout, then the
name phase.  `return DecodingError(...)` statements in the generator end
iteration silently (WSOut.stop).
-/
def wsStep (newFmt : Bool) (order : ByteOrder) (ptrsz : Nat) (st : WSState) :
    Except PyErr WSOut :=
  let p := st.p
  if newFmt then
    let b0 := p.getD 0 0
    let typ0 := b0 &&& 0x3F
    let typ := if typ0 < 26 then typ0 + 65 else typ0 + 97 - 26
    let s1 := { st.sv with typ := typ }
    let p1 := p.drop 1
    if b0 &&& 0x40 ≠ 0 then
      if p1.length < ptrsz then .error .decodingEOF
      else
        let s2 := { s1 with value := order.from_bytes (p1.take ptrsz) }
        wsGotype order ptrsz ((b0 &&& 0x80) ≠ 0) typ s2 (p1.drop ptrsz) st
    else
      match varLoop p1 0 0 with
      | .inl v => .ok (.stop st.acc { s1 with value := v })
      | .inr (v, p2) =>
        wsGotype order ptrsz ((b0 &&& 0x80) ≠ 0) typ { s1 with value := v } p2 st
  else
    let value := order.from_bytes (p.take 4)
    if p.length < 5 then .error .decodingEOF
    else
      let t := p.getD 4 0
      if t &&& 0x80 = 0 then .error .decodingBadType
      else
        -- `typ & ~0x80` clears bit 7; on byte values this is `typ & 0x7F`
        let typ := t &&& 0x7F
        wsName false order typ { st.sv with value := value, typ := typ }
          (p.drop 5) st.iv st.nnul st.acc

/--
The walksymtab record loop `while len(p) >= 4`, with an iteration budget.
Normal exit yields the accumulated records and the final state of the
shared record.
-/
def wsLoop (newFmt : Bool) (order : ByteOrder) (ptrsz : Nat) :
    Nat → WSState → Except PyErr (List symRec × symRec)
  | fuel, st =>
    if st.p.length < 4 then .ok (st.acc, st.sv)
    else
      match fuel with
      | 0 => .error .outOfFuel
      | f + 1 =>
        match wsStep newFmt order ptrsz st with
        | .error e => .error e
        | .ok (.stop acc sv) => .ok (acc, sv)
        | .ok (.next st2) => wsLoop newFmt order ptrsz f st2

/-- Kick off the record loop with a fresh shared record and unbound locals.
Every iteration consumes at least one byte, so `length + 1` iterations
always suffice. -/
def wsRun (newFmt : Bool) (order : ByteOrder) (ptrsz : Nat) (p : List Nat) :
    Except PyErr (List symRec × symRec) :=
  wsLoop newFmt order ptrsz (p.length + 1) { p := p }

/--
New-table-format entry of walksymtab (lines 57-63 of symtab.py): length
check, pointer-size byte, then the record loop.  For an invalid pointer
size the source executes `return DecodingError("invalid pointer size")`
inside the generator, which ends iteration silently instead of raising, so
no records are produced and no error escapes.
-/
def wsNew (order : ByteOrder) (data : List Nat) :
    Except PyErr (List symRec × symRec) :=
  if data.length < 8 then .error .decodingEOF
  else
    let ptrsz := data.getD 7 0
    if ptrsz ≠ 4 ∧ ptrsz ≠ 8 then .ok ([], {})
    else wsRun true order ptrsz (data.drop 8)

/--
walksymtab from symtab.py: detect the magic prefix (old little-endian, new
big-endian, new little-endian, or the un-prefixed oldest format), then
stream the records.  The result is the list of yielded records together
with the final state of the single shared record object that every yield
aliased (its fields keep the last mutations the loop made).
-/
def walksymtab (data : List Nat) : Except PyErr (List symRec × symRec) :=
  if data.length = 0 then .ok ([], {})
  else
    let dataMagic := data.take 7
    if bytesStarts dataMagic OLD_LITTLE_ENDIAN_SYMTAB then
      wsRun false .little 0 (data.drop 6)
    else if bytesStarts dataMagic BIG_ENDIAN_SYMTAB then
      wsNew .big data
    else if bytesStarts dataMagic LITTLE_ENDIAN_SYMTAB then
      wsNew .little data
    else
      wsRun false .big 0 data

/--
The C1/C2 scenario symtab buffer: the old-format magic followed by one
legacy record with value 0x1000 (little-endian), type byte the
function-type code with its high bit set, NUL-terminated name "main.main",
and a zero 4-byte type-descriptor.
-/
def mainSymtab : List Nat :=
  OLD_LITTLE_ENDIAN_SYMTAB ++ [0x00, 0x10, 0x00, 0x00, 0xD4] ++
    strCodes "main.main" ++ [0x00, 0x00, 0x00, 0x00, 0x00]

/-- The Table dataclass of symtab.py.  `files` maps a file-name string to an
index into `objs`; `funcs`/`syms`/`objs` are the arenas the index-valued
fields of GoSym/GoFunc/GoObj refer to. -/
structure Table where
  syms : List GoSym := []
  funcs : List GoFunc := []
  files : List (List Nat × Nat) := []
  objs : List GoObj := []
  go12line : Option LineTable := none
  deriving DecidableEq, Repr

/-- Nat-keyed Python dict insert for the path-component ordinal map. -/
def fnameSet (m : List (Nat × List Nat)) (k : Nat) (v : List Nat) :
    List (Nat × List Nat) :=
  (k, v) :: m.filter (fun p => p.1 ≠ k)

/-- The `/`-join step `if ts.name and ts.name[-1] != "/": ts.name += "/"`. -/
def zAppendSlash (cur : List Nat) : List Nat :=
  if cur ≠ [] ∧ cur.getLast? ≠ some 47 then cur ++ [47] else cur

/--
Path-record name resolution of new_table (lines 167-174 of symtab.py): the
raw name bytes are big-endian 16-bit ordinals, two bytes at a time (a lone
trailing byte makes a 1-byte slice), each looked up in the running ordinal
map; an unknown ordinal raises DecodingError("bad filename code"); resolved
components are joined with "/".
-/
def zPairs (fname : List (Nat × List Nat)) : List Nat → List Nat →
    Except PyErr (List Nat)
  | [], cur => .ok cur
  | [b], cur =>
    match List.lookup (fromBytesBE [b]) fname with
    | none => .error .decodingBadFile
    | some elt => .ok (zAppendSlash cur ++ elt)
  | b :: b2 :: rest, cur =>
    match List.lookup (fromBytesBE [b, b2]) fname with
    | none => .error .decodingBadFile
    | some elt => zPairs fname rest (zAppendSlash cur ++ elt)

/-- Python str.replace("·", ".") on decoded code points (U+00B7 is 183). -/
def middotFix (cps : List Nat) : List Nat :=
  cps.map (fun c => if c = 183 then 46 else c)

/-- State of the record-consuming loop of new_table (lines 153-182). -/
structure FoldState where
  syms : List GoSym := []
  fname : List (Nat × List Nat) := []
  nf : Nat := 0
  nz : Nat := 0
  lasttyp : Nat := 0
  deriving DecidableEq, Repr

/--
One iteration of the `for s in walksymtab(symtab)` loop of new_table: copy
the record into a fresh Sym, resolving path-record names through the
ordinal map and decoding other names as UTF-8 with the middle-dot
normalization; track the ordinal map ('f' records), the function-record
count and the count of path-record runs.
-/
def foldStep (fs : FoldState) (r : symRec) : Except PyErr FoldState :=
  if bZz.contains r.typ then
    let nz2 := if bZz.contains fs.lasttyp then fs.nz else fs.nz + 1
    match zPairs fs.fname r.name [] with
    | .error e => .error e
    | .ok nm =>
      .ok { fs with
        syms := fs.syms ++
          [{ value := r.value, type := r.typ, name := nm, go_type := r.gotype }],
        nz := nz2, lasttyp := r.typ }
  else
    match utf8Decode r.name with
    | none => .error .unicodeErr
    | some cps =>
      let nm := middotFix cps
      let fname2 := if r.typ = 102 then fnameSet fs.fname r.value nm else fs.fname
      let nf2 := if bTtLl.contains r.typ then fs.nf + 1 else fs.nf
      .ok { fs with
        syms := fs.syms ++
          [{ value := r.value, type := r.typ, name := nm, go_type := r.gotype }],
        fname := fname2, nf := nf2, lasttyp := r.typ }

/--
The Python `for end in range(lo, ...)` scans of new_table with a `break`:
returns the index where the loop broke, or the last visited index when it
ran to the end, or the incoming value of the loop variable when the range
was empty (`none` for a variable never assigned before).
-/
def forFindBreak (pred : Nat → Bool) : List Nat → Option Nat → Option Nat
  | [], e0 => e0
  | j :: rest, _ => if pred j then some j else forFindBreak pred rest (some j)

/-- State of the object/function assembly loop of new_table (lines 191-263). -/
structure NTState where
  i : Nat := 0
  lastf : Nat := 0
  funcs : List GoFunc := []
  objs : List GoObj := []
  obj : Option Nat := none
  endv : Option Nat := none
  syms : List GoSym := []
  pcln : LineTable := { data := [] }
  deriving DecidableEq, Repr

/-- In-place update of the Func at `k` in the funcs arena. -/
def funcsSet (funcs : List GoFunc) (k : Nat) (f : GoFunc → GoFunc) :
    List GoFunc :=
  funcs.set k (f (funcs.getD k {}))

/-- In-place update of the Obj at `k` in the objs arena. -/
def objsSet (objs : List GoObj) (k : Nat) (f : GoObj → GoObj) : List GoObj :=
  objs.set k (f (objs.getD k {}))

/--
The parameter/local collection loop `for j in range(i, end)` of new_table
(lines 252-259): 'm' records store the frame size -- the source reads
`s.value`, the final value of the walksymtab shared record, not the current
symbol -- and 'p'/'a' records are appended to params/locals (as indices).
-/
def jLoop (syms : List GoSym) (lastValue : Nat) (fn : GoFunc) (js : List Nat) :
    GoFunc :=
  js.foldl (fun f j =>
    let ls := syms.getD j {}
    if ls.type = 109 then { f with frame_size := lastValue }
    else if ls.type = 112 then { f with params := f.params ++ [j] }
    else if ls.type = 97 then { f with locals := f.locals ++ [j] }
    else f) fn

/--
One iteration of the assembly loop of new_table, reading `t.syms[i]`.

Path records ('Z'/'z'): when `t.go12line is None` the record is skipped;
otherwise the current object's funcs slice is closed (reading `obj`, an
UnboundLocalError if it was never assigned), a new Obj is opened, the run
of path records is scanned (the Python for/range leaves `end` at the last
index of a run that reaches the end of syms, or keeps its previous --
possibly unbound -- value for an empty range), its syms become the new
Obj's paths, and `i = end`.

Function records ('T'/'t'/'L'/'l'): the previous Func's end is patched,
etext markers are skipped, the extent of the record group is scanned with
`end` freshly zeroed, a Func is appended (reading `obj` -- an
UnboundLocalError when no modern table seeded it), its line table is shared
(modern) or sliced from the threaded classic cursor, params/locals/frame
size are collected, and `i = end`.

Anything else: `i += 1`.
-/
def ntStep (go12line : Option LineTable) (lastValue : Nat) (st : NTState) :
    Except PyErr NTState :=
  let sy := st.syms.getD st.i {}
  if bZz.contains sy.type then
    if go12line.isNone then .ok { st with i := st.i + 1 }
    else
      match st.obj with
      | none => .error .unboundLocal
      | some oi =>
        let objs1 := objsSet st.objs oi (fun o =>
          { o with funcs := List.range' st.lastf (st.funcs.length - st.lastf) })
        let lastf1 := st.funcs.length
        let objIdx := objs1.length
        let objs2 := objs1 ++ [{}]
        match forFindBreak
            (fun j => ¬ (bZz.contains ((st.syms.getD j {}).type)))
            (List.range' (st.i + 1) (st.syms.length - (st.i + 1))) st.endv with
        | none => .error .unboundLocal
        | some ev =>
          let objs3 := objsSet objs2 objIdx (fun o =>
            { o with paths := some (List.range' st.i (ev - st.i)) })
          .ok { st with
            objs := objs3, obj := some objIdx, lastf := lastf1,
            endv := some ev, i := ev }
  else if bTtLl.contains sy.type then
    let funcs1 :=
      if st.funcs.length = 0 then st.funcs
      else funcsSet st.funcs (st.funcs.length - 1)
        (fun f => { f with endAddr := sy.value })
    if sy.name = strCodes "runtime.etext" ∨ sy.name = strCodes "etext" then
      .ok { st with funcs := funcs1, i := st.i + 1 }
    else
      let ev := (forFindBreak
        (fun j => bTtLlZz.contains ((st.syms.getD j {}).type))
        (List.range' (st.i + 1) (st.syms.length - (st.i + 1))) (some 0)).getD 0
      let fnIdx := funcs1.length
      let syms1 := st.syms.set st.i { sy with func := some fnIdx }
      match st.obj with
      | none => .error .unboundLocal
      | some oi =>
        let fn0 : GoFunc :=
          { sym := some (.inl st.i), entry := sy.value, obj := some oi }
        let fn1 :=
          match go12line with
          | some lt => { fn0 with line_table := some lt }
          | none => { fn0 with line_table := some (st.pcln.slice sy.value) }
        let pcln1 :=
          match go12line with
          | some _ => st.pcln
          | none => st.pcln.slice sy.value
        let fn2 := jLoop syms1 lastValue fn1 (List.range' st.i (ev - st.i))
        .ok { st with
          funcs := funcs1 ++ [fn2], syms := syms1,
          endv := some ev, i := ev, pcln := pcln1 }
  else .ok { st with i := st.i + 1 }

/-- The assembly loop `while i < len(t.syms)` with an iteration budget. -/
def ntLoop (go12line : Option LineTable) (lastValue : Nat) :
    Nat → NTState → Except PyErr NTState
  | 0, st => if st.i < st.syms.length then .error .outOfFuel else .ok st
  | f + 1, st =>
    if st.i < st.syms.length then
      match ntStep go12line lastValue st with
      | .error e => .error e
      | .ok st2 => ntLoop go12line lastValue f st2
    else .ok st

/--
Epilogue of new_table (lines 265-272): in modern mode with zero legacy
function records, replace the funcs list by the modern enumeration (reading
the local `go12`, bound exactly when `t.go12line` was set); then read `obj`
(an UnboundLocalError when it was never assigned -- every classic-mode run
reaches this read) and give it the trailing funcs slice.
-/
def ntPost (go12line : Option LineTable) (go12var : Option Go12State)
    (files : List (List Nat × Nat)) (nf : Nat) (pcln : LineTable)
    (stF : NTState) : Except PyErr Table := do
  let funcs2 ←
    if go12line.isSome ∧ nf = 0 then
      match go12var with
      | some g => do
        let r ← g.go12_funcs pcln
        .ok r.2
      | none => .error .unboundLocal
    else .ok stF.funcs
  match stF.obj with
  | none => .error .unboundLocal
  | some oi =>
    .ok
      { syms := stF.syms, funcs := funcs2, files := files,
        objs := objsSet stF.objs oi (fun o =>
          { o with funcs := List.range' stF.lastf (funcs2.length - stF.lastf) }),
        go12line := go12line }

/--
Object-list seeding of new_table (lines 184-189): with a modern table, one
shared Obj and the modern file map (the locals `go12` and `obj` are bound);
otherwise `nz` empty Objs, the file map stays empty, and both locals stay
unbound.
-/
def ntSeed (go12opt : Option Go12State) (nz : Nat) :
    Except PyErr (List GoObj × List (List Nat × Nat) × Option Nat × Option Go12State) :=
  match go12opt with
  | some g =>
    match g.go12_map_files [] 0 with
    | .error e => .error e
    | .ok r => .ok ([{}], r.2, some 0, some r.1)
  | none => .ok (List.replicate nz {}, [], none, none)

/--
new_table from symtab.py: probe the line table for a modern header, stream
and copy the legacy records, seed the object list, run the assembly loop
with the given iteration budget, and finish with the epilogue.
-/
def new_table (fuel : Nat) (symtab : List Nat) (pcln : LineTable) :
    Except PyErr Table :=
  match pcln.go12 with
  | .error e => .error e
  | .ok go12opt =>
    match walksymtab symtab with
    | .error e => .error e
    | .ok pr =>
      match pr.1.foldlM foldStep {} with
      | .error e => .error e
      | .ok fs =>
        match ntSeed go12opt fs.nz with
        | .error e => .error e
        | .ok seeded =>
          let go12line : Option LineTable :=
            match go12opt with
            | some _ => some pcln
            | none => none
          match ntLoop go12line pr.2.value fuel
              { i := 0, lastf := 0, funcs := [], objs := seeded.1,
                obj := seeded.2.2.1, endv := none, syms := fs.syms,
                pcln := pcln } with
          | .error e => .error e
          | .ok stF => ntPost go12line seeded.2.2.2 seeded.2.1 fs.nf pcln stF

/--
A well-formed modern (Go 1.2) aux-table buffer: little-endian magic,
quantum 1, pointer size 8, an empty function table, and a file table with
nfiletab = 2 whose single real entry points at the string "a.go".
-/
def go12Data : List Nat :=
  [0xFB, 0xFF, 0xFF, 0xFF, 0x00, 0x00, 0x01, 0x08] ++
    List.replicate 8 0 ++ List.replicate 8 0 ++ [28, 0, 0, 0] ++
    [2, 0, 0, 0] ++ [36, 0, 0, 0] ++ strCodes "a.go" ++ [0]

/-- The Go12State that go12_init builds from go12Data. -/
def go12StateOfData : Go12State :=
  { functab := List.replicate 8 0,
    filetab := [2, 0, 0, 0, 36, 0, 0, 0],
    binary := .little, quantum := 1, ptrsize := 8,
    nfunctab := 0, nfiletab := 2 }

/-- A line table carrying the modern buffer. -/
def modernLT : LineTable := { data := go12Data }

/-- A line table with no modern header (classic decoding only). -/
def classicLT : LineTable := { data := [] }

/--
A legacy symtab buffer with a path record, then the "main.main" function
record, then a data record: old-format magic, record Z (value 0, empty
payload before the single NUL, double-NUL ordinal list, zero descriptor),
record T as in mainSymtab, record D (value 1, name "d", zero descriptor).
-/
def zSymtab : List Nat :=
  OLD_LITTLE_ENDIAN_SYMTAB ++
    [0x00, 0x00, 0x00, 0x00, 0xDA, 0x00, 0x00, 0x00, 0x00, 0x00, 0x00, 0x00] ++
    [0x00, 0x10, 0x00, 0x00, 0xD4] ++ strCodes "main.main" ++
    [0x00, 0x00, 0x00, 0x00, 0x00] ++
    [0x01, 0x00, 0x00, 0x00, 0xC4, 0x64, 0x00, 0x00, 0x00, 0x00, 0x00]

/-- Byte (and code-point) list of "main.main". -/
def mainName : List Nat := strCodes "main.main"

/-- The Table new_table builds from zSymtab with the modern line table. -/
def zTable : Table :=
  { syms := [{ value := 0, type := 90 },
      { value := 4096, type := 84, name := strCodes "main.main", func := some 0 },
      { value := 1, type := 68, name := strCodes "d" }],
    funcs :=
      [{ sym := some (.inl 1), entry := 4096, line_table := some modernLT,
         obj := some 1 }],
    files := [],
    objs := [{ funcs := [], paths := none }, { funcs := [0], paths := some [0] }],
    go12line := some modernLT }

/--
A new-format buffer whose declared pointer size is 5: big-endian new-format
magic followed by the pointer-size byte.
-/
def badPtrszBuf : List Nat := BIG_ENDIAN_SYMTAB ++ [0x05]

/--
A new-format buffer ending in the middle of a variable-width value: magic,
pointer size 8, a record first byte (type 20, both flags clear), then three
continuation bytes and no terminator.
-/
def truncVarintBuf : List Nat := BIG_ENDIAN_SYMTAB ++ [0x08, 0x14, 0x80, 0x80, 0x80]

/--
An old-format buffer ending in the middle of the first record's name: magic,
4-byte value, legacy type byte, then "abc" with no NUL terminator.
-/
def truncNameBuf : List Nat :=
  OLD_LITTLE_ENDIAN_SYMTAB ++ [0x00, 0x00, 0x00, 0x00, 0xC4, 97, 98, 99]

/--
A new-format buffer holding one record whose variable-width value is the
three bytes 81 82 01: magic, pointer size 8, record first byte (type 20,
flags clear), the value bytes, and an empty NUL-terminated name.
-/
def varintRecBuf : List Nat :=
  BIG_ENDIAN_SYMTAB ++ [0x08, 0x14, 0x81, 0x82, 0x01, 0x00]

/--
The little base-128 reading the C5 claim describes: the sum over bytes of
(byte AND 0x7F) shifted left by 7 times the byte's index.  Stated from the
claim's words, for comparison with the source's varLoop.
-/
def leb128Val : List Nat → Nat
  | [] => 0
  | b :: rest => (b &&& 0x7F) + 128 * leb128Val rest

/--
The signed big-endian 32-bit reading the C6 claim describes, stated from
the claim's words for comparison with the code's unsigned read.
-/
def besigned32 (l : List Nat) : Int :=
  let v := fromBytesBE (l.take 4)
  if v < 2147483648 then (v : Int) else (v : Int) - 4294967296

/--
The value the variable-width decoder actually produces, in closed form (the
amended C5): the OR of the first continuation byte's low 7 bits, the bit
0x80 if there is a second continuation byte (later continuation bytes
contribute nothing else: their payload is destroyed by the
`p[0] & (0x7F << shift)` mask), and the terminating byte shifted by 7 times
the number of continuation bytes.
-/
def varClosed : List Nat → Nat → Nat
  | [], last => last
  | [b0], last => (b0 &&& 0x7F) ||| (last <<< 7)
  | b0 :: _ :: rest, last =>
    ((b0 &&& 0x7F) ||| 0x80) ||| (last <<< (7 * (rest.length + 2)))

/--
The malformed-header conditions of C10, over the raw buffer: too short,
nonzero pad bytes, a bad quantum, a bad pointer size, or a magic that
matches in neither byte order.
-/
def go12HeaderBad (data : List Nat) : Prop :=
  data.length < 16 ∨ data.getD 4 0 ≠ 0 ∨ data.getD 5 0 ≠ 0 ∨
    (data.getD 6 0 ≠ 1 ∧ data.getD 6 0 ≠ 2 ∧ data.getD 6 0 ≠ 4) ∨
    (data.getD 7 0 ≠ 4 ∧ data.getD 7 0 ≠ 8) ∨
    (fromBytesBE (data.take 4) ≠ GO12_MAGIC ∧
      fromBytesLE (data.take 4) ≠ GO12_MAGIC)

instance go12HeaderBadDec (data : List Nat) : Decidable (go12HeaderBad data) := by
  unfold go12HeaderBad
  infer_instance

/--
C1.  On the claimed scenario -- old-format magic, one record with value
0x1000, function type byte with high bit set, name "main.main", zero
descriptor, together with a non-modern line table -- new_table does not
return a Table at all: the classic path reads the local `obj` at
`fn.obj = obj` before any assignment, an UnboundLocalError.
-/
theorem c1_scenario_hits_unbound_obj :
    new_table 10 mainSymtab classicLT = .error .unboundLocal ∧
      walksymtab mainSymtab =
        .ok ([{ value := 0x1000, typ := 84, name := strCodes "main.main" }],
          { value := 0x1000, typ := 84, name := strCodes "main.main" }) := by
  exact ⟨rfl, rfl⟩

set_option maxHeartbeats 1000000 in
/--
Helper for C2: one assembly-loop step from any state whose cursor sits on
the single "main.main" function record.  Because the Python
`for end in range(i + 1, len(t.syms))` never runs when the record is last,
`end` keeps its freshly zeroed value and `i = end` resets the cursor to 0:
the step returns a state with `i = 0` again (only funcs and the back
reference grow).
-/
theorem c2_step (lastf : Nat) (funcs : List GoFunc) (objs : List GoObj)
    (endv : Option Nat) (pcln : LineTable) (f : Option Nat) :
    ∃ funcs2 f2,
      ntStep (some modernLT) 4096
        { i := 0, lastf := lastf, funcs := funcs, objs := objs, obj := some 0,
          endv := endv,
          syms := [{ value := 4096, type := 84, name := mainName, func := f }],
          pcln := pcln } =
      .ok
        { i := 0, lastf := lastf, funcs := funcs2, objs := objs,
          obj := some 0, endv := some 0,
          syms := [{ value := 4096, type := 84, name := mainName, func := f2 }],
          pcln := pcln } := by
  have h1 : ¬ (84 ∈ bZz) := by decide
  have h2 : 84 ∈ bTtLl := by decide
  have h3 : ¬(mainName = strCodes "runtime.etext" ∨ mainName = strCodes "etext") := by
    decide
  refine
    ⟨(if funcs.length = 0 then funcs
      else funcsSet funcs (funcs.length - 1)
        (fun fn => { fn with endAddr := 4096 })) ++
      [{ sym := some (.inl 0), entry := 4096, line_table := some modernLT,
         obj := some 0 }],
     some ((if funcs.length = 0 then funcs
       else funcsSet funcs (funcs.length - 1)
         (fun fn => { fn with endAddr := 4096 })).length),
     ?_⟩
  simp [ntStep, h1, h2, h3, forFindBreak, jLoop]

/--
Helper for C2: with the "main.main" record as the only symbol and a bound
shared object, the assembly loop never leaves `i = 0`, so it exhausts any
iteration budget.
-/
theorem c2_loop (fuel : Nat) :
    ∀ (lastf : Nat) (funcs : List GoFunc) (objs : List GoObj)
      (endv : Option Nat) (pcln : LineTable) (f : Option Nat),
      ntLoop (some modernLT) 4096 fuel
        { i := 0, lastf := lastf, funcs := funcs, objs := objs, obj := some 0,
          endv := endv,
          syms := [{ value := 4096, type := 84, name := mainName, func := f }],
          pcln := pcln } = .error .outOfFuel := by
  induction fuel with
  | zero =>
    intro lastf funcs objs endv pcln f
    simp [ntLoop]
  | succ n ih =>
    intro lastf funcs objs endv pcln f
    obtain ⟨funcs2, f2, hstep⟩ := c2_step lastf funcs objs endv pcln f
    simp [ntLoop, hstep, ih]

/--
C2.  new_table does not terminate on every input: with the modern line
table and the single-record "main.main" legacy buffer, the assembly loop
re-processes index 0 forever (the Python for/range translation of the Go
scan loop leaves `end` = 0 when the function record is last, so `i = end`
never advances), exhausting every iteration budget.
-/
theorem c2_new_table_does_not_terminate :
    ∀ fuel, new_table fuel mainSymtab modernLT = .error .outOfFuel := by
  intro fuel
  have hg : modernLT.go12 = .ok (some go12StateOfData) := by decide
  have hw : walksymtab mainSymtab =
      .ok ([{ value := 4096, typ := 84, name := mainName }],
        { value := 4096, typ := 84, name := mainName }) := by decide
  have hf : List.foldlM foldStep {}
      [({ value := 4096, typ := 84, name := mainName } : symRec)] =
      (.ok
        { syms := [{ value := 4096, type := 84, name := mainName }],
          fname := [], nf := 1, nz := 0, lasttyp := 84 } :
        Except PyErr FoldState) := by decide
  have hm : ntSeed (some go12StateOfData) 0 =
      .ok ([{}], [], some 0, some go12StateOfData) := by decide
  have hl := c2_loop fuel 0 [] [{}] none modernLT none
  simp only [new_table, hg, hw, hf, hm, hl]

set_option maxHeartbeats 1000000 in
/--
C3.  With a modern line table present, a legacy path record is not ignored:
on zSymtab (one 'Z' record, then "main.main", then a data record) the
assembly loop closes the shared object, opens a second Obj whose paths list
is the path record, and hands the function to that second Obj, so the
single shared Obj (index 0) owns no function.  The inverted
`if t.go12line is None` check contradicts the claimed modern-mode
behaviour.
-/
theorem c3_modern_mode_builds_path_obj :
    new_table 10 zSymtab modernLT = .ok zTable ∧
      zTable.objs.length = 2 ∧
      (zTable.funcs.getD 0 {}).obj = some 1 ∧
      (zTable.objs.getD 1 {}).paths = some [0] ∧
      (zTable.objs.getD 0 {}).funcs = [] := by
  have hg : modernLT.go12 = .ok (some go12StateOfData) := by decide
  have hw : walksymtab zSymtab =
      .ok ([{ value := 0, typ := 90 },
        { value := 4096, typ := 84, name := mainName },
        { value := 1, typ := 68, name := [100] }],
       { value := 1, typ := 68, name := [100] }) := by decide
  have hf : List.foldlM foldStep {}
      [({ value := 0, typ := 90 } : symRec),
        { value := 4096, typ := 84, name := mainName },
        { value := 1, typ := 68, name := [100] }] =
      (.ok
        { syms := [{ value := 0, type := 90 },
            { value := 4096, type := 84, name := mainName },
            { value := 1, type := 68, name := [100] }],
          fname := [], nf := 1, nz := 1, lasttyp := 68 } :
        Except PyErr FoldState) := by decide
  have hm : ntSeed (some go12StateOfData) 1 =
      .ok ([{}], [], some 0, some go12StateOfData) := by decide
  have hl : ntLoop (some modernLT) 1 10
      { i := 0, lastf := 0, funcs := [], objs := [{}], obj := some 0,
        endv := none,
        syms := [{ value := 0, type := 90 },
          { value := 4096, type := 84, name := mainName },
          { value := 1, type := 68, name := [100] }],
        pcln := modernLT } =
      .ok
        { i := 3, lastf := 0,
          funcs :=
            [{ sym := some (.inl 1), entry := 4096,
               line_table := some modernLT, obj := some 1 }],
          objs := [{}, { funcs := [], paths := some [0] }], obj := some 1,
          endv := some 2,
          syms := [{ value := 0, type := 90 },
            { value := 4096, type := 84, name := mainName, func := some 0 },
            { value := 1, type := 68, name := [100] }],
          pcln := modernLT } := by decide
  have hp : ntPost (some modernLT) (some go12StateOfData) [] 1 modernLT
      { i := 3, lastf := 0,
        funcs :=
          [{ sym := some (.inl 1), entry := 4096,
             line_table := some modernLT, obj := some 1 }],
        objs := [{}, { funcs := [], paths := some [0] }], obj := some 1,
        endv := some 2,
        syms := [{ value := 0, type := 90 },
          { value := 4096, type := 84, name := mainName, func := some 0 },
          { value := 1, type := 68, name := [100] }],
        pcln := modernLT } = .ok zTable := by decide
  refine ⟨?_, rfl, rfl, rfl, rfl⟩
  simp only [new_table, hg, hw, hf, hm, hl, hp]

/--
C4.  After its first use the filename map is still empty: on a modern
buffer declaring two file-table entries, go12_init yields a state with
nfiletab = 2 whose file_map is the empty dict; init_file_map returns it
unchanged (the `is not None` guard always fires because the field defaults
to the empty dict, not None), and go12_map_files therefore adds no key at
all to the caller's files mapping.
-/
theorem c4_file_map_stays_empty :
    modernLT.go12_init = .ok (some go12StateOfData) ∧
      go12StateOfData.nfiletab = 2 ∧
      go12StateOfData.file_map = some [] ∧
      go12StateOfData.init_file_map = .ok go12StateOfData ∧
      go12StateOfData.go12_map_files [] 0 = .ok (go12StateOfData, []) := by
  exact ⟨rfl, rfl, rfl, rfl, rfl⟩

/--
C7.  A new-format buffer declaring pointer size 5 does not raise: the
source executes `return DecodingError("invalid pointer size")` inside the
generator, so iteration ends silently with no records and no exception,
contrary to the claimed DecodingError.
-/
theorem c7_bad_ptrsize_ends_silently :
    walksymtab badPtrszBuf = .ok ([], {}) := by
  exact rfl

/--
C8.  Reads running past the buffer end do not (always) raise a truncation
DecodingError: a buffer ending inside a variable-width value ends iteration
silently (the generator `return DecodingError(...)` slip), and a buffer
ending inside the first record's name raises UnboundLocalError (`nnul` is
read before any assignment), a non-decoding exception.
-/
theorem c8_truncated_reads_not_decoding_errors :
    walksymtab truncVarintBuf = .ok ([], { value := 128, typ := 85 }) ∧
      walksymtab truncNameBuf = .error .unboundLocal := by
  exact ⟨rfl, rfl⟩

/--
C5 counterexample.  For the new-format record whose variable-width value
bytes are 81 82 01, the decoder (because `p[0] & 0x7F << shift` is
`p[0] & (0x7F << shift)` in Python) produces 16513, while the claimed
little base-128 sum of those bytes is 16641.
-/
theorem c5_counterexample :
    walksymtab varintRecBuf =
        .ok ([{ value := 16513, typ := 85 }], { value := 16513, typ := 85 }) ∧
      leb128Val [0x81, 0x82, 0x01] = 16641 ∧ (16513 : Nat) ≠ 16641 := by
  exact ⟨rfl, rfl, by decide⟩

/--
C6 counterexample.  Opcode 0 followed by FF FF FF FF: the code adds the
unsigned value 4294967295 to `line`, not the signed delta -1 the claim
describes.
-/
theorem c6_counterexample :
    parse [0, 255, 255, 255, 255] 0 0 0 (-1) = ([], 1, 4294967295) ∧
      (0 : Int) + besigned32 [255, 255, 255, 255] = -1 ∧
      ((4294967295 : Int) ≠ -1) := by
  refine ⟨rfl, by decide, by decide⟩

/--
C9 counterexample.  The stream [1, 200] (one line opcode, one PC-advance
opcode 200) consumes 2 opcodes but ends with pc = 73, not
`quantum × 2 = 2` as the claim computes: the PC-advance opcode moves pc by
`quantum × (200 - 128)`, not by one quantum.
-/
theorem c9_counterexample :
    parse [1, 200] 0 0 1000 (-1) = ([], 73, 1) ∧
      (0 : Int) + OLD_QUANTUM * 2 = 2 ∧ ((73 : Int) ≠ 2) := by
  refine ⟨rfl, by decide, by decide⟩

/-- A byte masked against a 7-bit mask shifted by at least 8 vanishes. -/
theorem byte_and_mask_hi (b s : Nat) (hb : b < 256) (hs : 8 ≤ s) :
    b &&& (0x7F <<< s) = 0 := by
  apply Nat.eq_of_testBit_eq
  intro i
  simp only [Nat.testBit_and, Nat.testBit_shiftLeft, Nat.zero_testBit,
    Bool.and_eq_false_imp]
  intro hbi
  by_cases hi : s ≤ i
  · have hfalse : b.testBit i = false :=
      Nat.testBit_lt_two_pow (lt_of_lt_of_le hb (by
        calc (256 : Nat) = 2 ^ 8 := by norm_num
          _ ≤ 2 ^ i := Nat.pow_le_pow_right (by norm_num) (le_trans hs hi)))
    simp [hfalse] at hbi
  · simp [hi]

/-- A continuation byte masked against the shift-7 mask collapses to 0x80. -/
theorem byte_and_mask7 (b : Nat) (hb : b < 256) (hhi : b &&& 0x80 ≠ 0) :
    b &&& (0x7F <<< 7) = 0x80 := by
  revert hhi
  revert hb
  revert b
  decide

/--
Once the shift reaches 8, every further continuation byte contributes
nothing and the loop just waits for the terminating byte.
-/
theorem varLoop_hi (cont : List Nat) (last : Nat) (tail : List Nat) :
    ∀ (v s : Nat), (∀ b ∈ cont, b < 256 ∧ b &&& 0x80 ≠ 0) →
      last &&& 0x80 = 0 → 8 ≤ s →
      varLoop (cont ++ last :: tail) v s =
        .inr (v ||| (last <<< (7 * cont.length + s)), tail) := by
  induction cont with
  | nil =>
    intro v s _ hlast hs
    simp [varLoop, hlast]
  | cons b cont ih =>
    intro v s hc hlast hs
    obtain ⟨hb, hbhi⟩ := hc b (List.mem_cons_self b cont)
    have hmask := byte_and_mask_hi b s hb hs
    simp only [List.cons_append, varLoop, hbhi, ne_eq, not_false_eq_true,
      if_true, hmask, Nat.or_zero, List.append_eq]
    rw [ih v (s + 7) (fun x hx => hc x (List.mem_cons_of_mem b hx)) hlast
      (by omega)]
    simp only [List.length_cons]
    rw [show 7 * cont.length + (s + 7) = 7 * (cont.length + 1) + s by ring]

/--
C5 amended.  With the fixed-width flag clear, the value decoded from a run
of continuation bytes followed by a terminating byte (high bit clear) is
not the little base-128 sum of the payloads: it is the first byte's low 7
bits, OR 0x80 when at least two continuation bytes are present, OR the
terminating byte shifted left by 7 times the number of continuation bytes.
The payload of every continuation byte after the first is discarded by the
`p[0] & (0x7F << shift)` grouping.
-/
theorem c5_varint_amended (cont : List Nat) (last : Nat) (tail : List Nat)
    (hc : ∀ b ∈ cont, b < 256 ∧ b &&& 0x80 ≠ 0) (hl : last &&& 0x80 = 0) :
    varLoop (cont ++ last :: tail) 0 0 = .inr (varClosed cont last, tail) := by
  match cont with
  | [] =>
    simp [varLoop, hl, varClosed]
  | [b0] =>
    obtain ⟨hb0, hb0hi⟩ := hc b0 (by simp)
    simp [varLoop, hb0hi, hl, varClosed]
  | b0 :: b1 :: rest =>
    obtain ⟨hb0, hb0hi⟩ := hc b0 (by simp)
    obtain ⟨hb1, hb1hi⟩ := hc b1 (by simp)
    have h1 := byte_and_mask7 b1 hb1 hb1hi
    simp only [List.cons_append, varLoop, hb0hi, hb1hi, ne_eq,
      not_false_eq_true, if_true, h1, List.append_eq]
    rw [show (0 + 7 + 7 : Nat) = 14 by norm_num]
    rw [varLoop_hi rest last tail _ 14
      (fun x hx => hc x (by simp [hx])) hl (by omega)]
    simp only [varClosed, Nat.shiftLeft_zero, Nat.zero_or]
    rw [show 7 * rest.length + 14 = 7 * (rest.length + 2) by ring]

/--
Witness for the amended C5 at the counterexample's bytes 81 82 01: two
continuation bytes and the terminator 1.
-/
theorem c5_varint_amended_witness :
    (∀ b ∈ [0x81, 0x82], b < 256 ∧ b &&& 0x80 ≠ 0) ∧ (1 &&& 0x80 = 0) ∧
      varLoop [0x81, 0x82, 0x01] 0 0 = .inr (varClosed [0x81, 0x82] 1, []) ∧
      varClosed [0x81, 0x82] 1 = 16513 := by
  refine ⟨by decide, by decide, ?_, by decide⟩
  exact c5_varint_amended [0x81, 0x82] 1 [] (by decide) (by decide)

/--
C6 amended.  In the classic parse step, opcode 0 reads the next 4 bytes as
a big-endian unsigned 32-bit value, adds it to `line`, and advances `pc` by
one quantum (there is no sign extension in the code).
-/
theorem c6_opcode0_amended (r1 r2 r3 r4 : Nat) (rest : List Nat)
    (pc line target_pc target_line : Int)
    (h1 : pc ≤ target_pc) (h2 : line ≠ target_line) :
    parse (0 :: r1 :: r2 :: r3 :: r4 :: rest) pc line target_pc target_line =
      parse rest (pc + OLD_QUANTUM)
        (line + (fromBytesBE [r1, r2, r3, r4] : Int)) target_pc target_line := by
  conv_lhs => rw [parse]
  simp [h1, h2]

/-- Witness for the amended C6 at a concrete buffer and state. -/
theorem c6_opcode0_amended_witness :
    ((0 : Int) ≤ 5) ∧ ((0 : Int) ≠ 7) ∧
      parse [0, 0, 0, 0, 1, 9] 0 0 5 7 =
        parse [9] (0 + OLD_QUANTUM) (0 + (fromBytesBE [0, 0, 0, 1] : Int)) 5 7 := by
  refine ⟨by decide, by decide, ?_⟩
  exact c6_opcode0_amended 0 0 0 1 [9] 0 0 5 7 (by decide) (by decide)

/--
C9 amended.  For a stream of n line opcodes (1-64) followed by one
PC-advance opcode c (129-255), with targets that cannot stop the loop
early, the final line is the initial line plus the sum of the opcode
values, and the final pc is the initial pc plus quantum times
(n + (c - 128)): the PC-advance opcode contributes c - 128 quanta, not one.
-/
theorem c9_stream_amended (ops : List Nat) (c : Nat) :
    ∀ (pc line target_pc : Int),
      (∀ o ∈ ops, 1 ≤ o ∧ o ≤ 64) → 129 ≤ c → c ≤ 255 → 0 ≤ line →
      pc + ops.length ≤ target_pc →
      parse (ops ++ [c]) pc line target_pc (-1) =
        ([], pc + OLD_QUANTUM * ((ops.length : Int) + ((c : Int) - 128)),
          line + (ops.sum : Int)) := by
  induction ops with
  | nil =>
    intro pc line tpc _ hc1 hc2 hline hpc
    have hpct : pc ≤ tpc := by simpa using hpc
    have hline2 : line ≠ (-1 : Int) := by omega
    have hc0 : ¬(c = 0) := by omega
    have hc64 : ¬(c ≤ 64) := by omega
    have hc128 : ¬(c ≤ 128) := by omega
    conv_lhs => rw [parse.eq_def]
    simp [hc0, hc64, hc128, hpct, hline2]
    rw [parse.eq_def]
    simp [OLD_QUANTUM]
  | cons o ops ih =>
    intro pc line tpc hops hc1 hc2 hline hpc
    obtain ⟨ho1, ho64⟩ := hops o (List.mem_cons_self o ops)
    simp only [List.length_cons] at hpc
    push_cast at hpc
    have hn : (0 : Int) ≤ (ops.length : Int) := Int.natCast_nonneg _
    have hpct : pc ≤ tpc := by omega
    have hline2 : line ≠ (-1 : Int) := by omega
    have ho0 : ¬(o = 0) := by omega
    conv_lhs => rw [parse.eq_def]
    simp [ho0, ho64, hpct, hline2]
    rw [ih (pc + OLD_QUANTUM) (line + (o : Int)) tpc
      (fun x hx => hops x (List.mem_cons_of_mem o hx)) hc1 hc2
      (by have hno : (0 : Int) ≤ (o : Int) := Int.natCast_nonneg _; omega)
      (by simp only [OLD_QUANTUM]; omega)]
    simp only [List.length_cons, List.sum_cons, OLD_QUANTUM, Prod.mk.injEq]
    refine ⟨trivial, by ring, by push_cast; ring⟩

/-- Witness for the amended C9: two line opcodes then PC-advance 129. -/
theorem c9_stream_amended_witness :
    (∀ o ∈ [2, 3], 1 ≤ o ∧ o ≤ 64) ∧ (129 ≤ 129) ∧ (129 ≤ 255) ∧
      ((0 : Int) ≤ 0) ∧ ((0 : Int) + (([2, 3] : List Nat).length : Int) ≤ 100) ∧
      parse [2, 3, 129] 0 0 100 (-1) =
        ([], 0 + OLD_QUANTUM * ((([2, 3] : List Nat).length : Int) +
          ((129 : Int) - 128)), 0 + (([2, 3] : List Nat).sum : Int)) := by
  refine ⟨by decide, by decide, by decide, by decide, by decide, ?_⟩
  exact c9_stream_amended [2, 3] 129 0 0 100 (by decide) (by decide) (by decide)
    (by decide) (by decide)

/-- In-bounds Python indexing returns the element. -/
theorem pyGet_lt {l : List Nat} {i : Nat} (h : i < l.length) :
    pyGet l i = .ok (l.getD i 0) := by
  unfold pyGet
  cases hq : l.get? i with
  | none => exact absurd (List.get?_eq_none.mp hq) (by omega)
  | some v =>
    have hv : l.getD i 0 = v := by
      rw [List.getD_eq_getElem?_getD, ← List.get?_eq_getElem?, hq]
      rfl
    rw [hv]

/--
C10.  The modern-header check (the go12 property, i.e. go12_init) never
raises on any buffer -- every indexing it performs is guarded by the length
check, and the remaining reads are clamping slices -- and on every
malformed header it returns with the modern state absent, so the caller
falls back to classic decoding.
-/
theorem c10_go12_never_raises (lt : LineTable) :
    (∃ r, lt.go12 = .ok r) ∧
      (go12HeaderBad lt.data → lt.go12 = .ok none) := by
  by_cases h16 : lt.data.length < 16
  · constructor
    · exact ⟨none, by simp [LineTable.go12, LineTable.go12_init, h16]⟩
    · intro _
      simp [LineTable.go12, LineTable.go12_init, h16]
  · have e4 := pyGet_lt (l := lt.data) (i := 4) (by omega)
    have e5 := pyGet_lt (l := lt.data) (i := 5) (by omega)
    have e6 := pyGet_lt (l := lt.data) (i := 6) (by omega)
    have e7 := pyGet_lt (l := lt.data) (i := 7) (by omega)
    constructor
    · simp only [LineTable.go12, LineTable.go12_init, h16, if_false, e4, e5,
        e6, e7]
      split
      · exact ⟨_, rfl⟩
      · split
        · exact ⟨_, rfl⟩
        · split
          · exact ⟨_, rfl⟩
          · split
            · exact ⟨_, rfl⟩
            · split
              · exact ⟨_, rfl⟩
              · split
                · exact ⟨_, rfl⟩
                · exact ⟨_, rfl⟩
    · intro hbad
      rcases hbad with h | h | h | h | h | h <;>
        simp only [LineTable.go12, LineTable.go12_init, h16, if_false, e4,
          e5, e6, e7] <;>
        (repeat' split) <;>
        first
          | rfl
          | (exfalso; omega)

/--
Witness for C10 at a concrete malformed buffer: sixteen zero bytes (the
quantum byte is 0, which is invalid, and the magic matches neither order).
-/
theorem c10_go12_never_raises_witness :
    go12HeaderBad (List.replicate 16 0) ∧
      (LineTable.mk (List.replicate 16 0) 0 0).go12 = .ok none := by
  refine ⟨by decide, ?_⟩
  exact (c10_go12_never_raises (LineTable.mk (List.replicate 16 0) 0 0)).2
    (by decide)

end Pygosym
